import Mathlib

/-!
Formal model of the expression-resolution and assertion-evaluation core of the
Api-Test-MCP framework.  The definitions below are a shallow embedding of
`atf/core/variable_resolver.py` (class `VariableResolver`),
`atf/core/assert_handler.py` (class `AssertHandler`) and
`atf/core/request_handler.py` (class `SSEResponse`).  Python values that come
out of YAML/JSON are modelled by the `JSON` tree; fallible Python code is
modelled in `Except PyErr`; the `assert` statement is modelled by `assertTrue`.
Logging calls (`log.info` / `log.error`) are pure observations and are omitted.
-/

mutual
/-- A Python value as produced by YAML/JSON loading: `None`, `bool`, `int`,
`str`, `list` and `dict` (string keys, insertion order).  `JSON.null` is
Python's `None`.  The code under verification never manipulates floats, so the
model has no float constructor. -/
inductive JSON where
  | null
  | bool (b : Bool)
  | int (n : Int)
  | str (s : String)
  | arr (xs : JList)
  | obj (kvs : JObj)
/-- Elements of a Python list of `JSON` values, in order. -/
inductive JList where
  | nil
  | cons (hd : JSON) (tl : JList)
/-- Key/value entries of a Python dict with string keys, in insertion order. -/
inductive JObj where
  | nil
  | cons (k : String) (v : JSON) (tl : JObj)
end

def JList.ofList : List JSON → JList
  | [] => .nil
  | x :: xs => .cons x (JList.ofList xs)

def JObj.ofList : List (String × JSON) → JObj
  | [] => .nil
  | (k, v) :: tl => .cons k v (JObj.ofList tl)

/-- Convenience constructor for a Python list value. -/
def jarr (xs : List JSON) : JSON := .arr (JList.ofList xs)

/-- Convenience constructor for a Python dict value. -/
def jobj (kvs : List (String × JSON)) : JSON := .obj (JObj.ofList kvs)

/-- Python dict lookup `d.get(k)` / `d[k]` on the entries of a dict (first
matching key). -/
def oLookup : JObj → String → Option JSON
  | .nil, _ => none
  | .cons k v tl, q => if k = q then some v else oLookup tl q

def oLen : JObj → Nat
  | .nil => 0
  | .cons _ _ tl => oLen tl + 1

def JList.len : JList → Nat
  | .nil => 0
  | .cons _ tl => JList.len tl + 1

def JList.get? : JList → Nat → Option JSON
  | .nil, _ => none
  | .cons x _, 0 => some x
  | .cons _ tl, n + 1 => JList.get? tl n

def JList.anyB (f : JSON → Bool) : JList → Bool
  | .nil => false
  | .cons x tl => f x || JList.anyB f tl

/-- Lookup in a plain association list (used for Python dicts that the model
keeps at the meta level: variable scopes, assertion specs, SSE events). -/
def alookup : List (String × JSON) → String → Option JSON
  | [], _ => none
  | (k, v) :: tl, q => if k = q then some v else alookup tl q

mutual
/-- Python `==` on values: `None == None`, numeric equality identifies `bool`
with `int` (`True == 1`), strings compare as strings, lists elementwise, dicts
by key set and values.  Values of different (non-numeric) kinds are unequal. -/
def pyEqJ : JSON → JSON → Bool
  | .null, .null => true
  | .bool a, .bool b => a == b
  | .bool a, .int m => (if a then (1 : Int) else 0) == m
  | .int n, .bool b => n == (if b then 1 else 0)
  | .int n, .int m => n == m
  | .str s, .str t => s == t
  | .arr xs, .arr ys => pyEqL xs ys
  | .obj xs, .obj ys => oLen xs == oLen ys && oAllEq xs ys
  | _, _ => false
termination_by structural a _ => a
/-- Python `==` on lists: same length, equal elementwise. -/
def pyEqL : JList → JList → Bool
  | .nil, .nil => true
  | .cons x xs, .cons y ys => pyEqJ x y && pyEqL xs ys
  | _, _ => false
termination_by structural xs _ => xs
/-- Every entry of the first dict is present (with an equal value) in the
second dict; together with equal sizes this is Python dict equality. -/
def oAllEq : JObj → JObj → Bool
  | .nil, _ => true
  | .cons k v tl, ys =>
      (match oLookup ys k with
       | some w => pyEqJ v w
       | none => false) && oAllEq tl ys
termination_by structural xs _ => xs
end

mutual
/-- Python `repr` of a value: `None`, `True`/`False`, decimal integers, strings
in single quotes, lists in brackets, dicts in braces.  Quote escaping inside
strings is not modelled (no string in the verified scenarios contains a
quote). -/
def pyReprJ : JSON → String
  | .null => "None"
  | .bool true => "True"
  | .bool false => "False"
  | .int n => toString n
  | .str s => "'" ++ s ++ "'"
  | .arr xs => "[" ++ pyReprL xs ++ "]"
  | .obj kvs => "\x7b" ++ pyReprO kvs ++ "\x7d"
termination_by structural j => j
def pyReprL : JList → String
  | .nil => ""
  | .cons x .nil => pyReprJ x
  | .cons x tl => pyReprJ x ++ ", " ++ pyReprL tl
termination_by structural xs => xs
def pyReprO : JObj → String
  | .nil => ""
  | .cons k v .nil => "'" ++ k ++ "': " ++ pyReprJ v
  | .cons k v tl => "'" ++ k ++ "': " ++ pyReprJ v ++ ", " ++ pyReprO tl
termination_by structural kvs => kvs
end

/-- Python `str` of a value: a string renders as itself, everything else as its
`repr` (this is how `str()` behaves on the value kinds the code handles). -/
def pyStrJ : JSON → String
  | .str s => s
  | v => pyReprJ v

/-- Python truthiness: `None`, `False`, `0`, `""`, `[]`, and the empty dict are
falsy, everything else truthy. -/
def pyTruthy : JSON → Bool
  | .null => false
  | .bool b => b
  | .int n => n != 0
  | .str s => !s.data.isEmpty
  | .arr .nil => false
  | .arr _ => true
  | .obj .nil => false
  | .obj _ => true

def isNullJ : JSON → Bool
  | .null => true
  | _ => false

def isObjJ : JSON → Bool
  | .obj _ => true
  | _ => false

/-- Values Python's `isinstance(x, (int, float, bool))` accepts in this model
(no float values occur). -/
def isNumBool : JSON → Bool
  | .int _ => true
  | .bool _ => true
  | _ => false

/-- Python `str.isdigit()` (ASCII digits): nonempty and all digits. -/
def isDigitStr (s : String) : Bool := !s.data.isEmpty && s.data.all Char.isDigit

/-- Python `int()` on a digit string. -/
def natOfDigits (cs : List Char) : Nat := cs.foldl (fun a c => a * 10 + (c.toNat - 48)) 0

/-- Python substring test `needle in hay` on character lists. -/
def substrL (needle : List Char) : List Char → Bool
  | [] => needle.isEmpty
  | c :: rest => needle.isPrefixOf (c :: rest) || substrL needle rest

/-- Python substring test `needle in hay` on strings. -/
def pySubstrS (needle hay : String) : Bool := substrL needle.data hay.data

/-- Python `str.startswith`. -/
def pyStartsWith (s pre : String) : Bool := pre.data.isPrefixOf s.data

/-- Characters stripped by Python `str.strip()`. -/
def pyIsSpace (c : Char) : Bool :=
  c = ' ' || c = '\t' || c = '\n' || c = '\r' || c = '\x0b' || c = '\x0c'

def pyStripL (cs : List Char) : List Char :=
  ((cs.dropWhile pyIsSpace).reverse.dropWhile pyIsSpace).reverse

/-- Python `str.strip()`. -/
def pyStrip (s : String) : String := ⟨pyStripL s.data⟩

/-- First character test (used for `match.startswith(' ')`). -/
def headIs (cs : List Char) (c : Char) : Bool :=
  match cs with
  | d :: _ => d = c
  | [] => false

/-- Last character test (used for `match.endswith(' ')`). -/
def lastIs (cs : List Char) (c : Char) : Bool := headIs cs.reverse c

/-- Errors raised by the embedded Python code.  `recursionError` stands for
Python's recursion limit and is the fuel-exhaustion outcome of the store-level
model. -/
inductive PyErr where
  | valueError (msg : String)
  | keyError (key : String)
  | indexError
  | typeError
  | attributeError
  | assertionError (msg : String)
  | recursionError
  deriving Repr, DecidableEq

/-- Python's bare `assert cond, msg`. -/
def assertTrue (b : Bool) (msg : String) : Except PyErr Unit :=
  if b then .ok () else .error (.assertionError msg)

/-! Regex machinery for `re.findall(pattern, value)` used by
`VariableResolver._process_string`, where the pattern matches two opening
braces, a lazy group, and two closing braces. -/

/-- Lazy scan for the closing braces of the pattern's group: returns the inner
group and the remainder after the closing braces; fails at end of input or at a
newline (the dot of the pattern does not match a newline). -/
def scanInner : List Char → Option (List Char × List Char)
  | '}' :: '}' :: rest => some ([], rest)
  | '\n' :: _ => none
  | c :: rest =>
      match scanInner rest with
      | some (inner, rest2) => some (c :: inner, rest2)
      | none => none
  | [] => none

/-- Left-to-right scan for all matches of the expression pattern, returning the
inner groups in order.  When a match attempt at two opening braces fails (no
closing braces ahead), the scan resumes one character later, exactly like the
regex engine.  The fuel is the remaining string length; every step consumes at
least one character, so fuel equal to the initial length never runs out. -/
def findAllGo : Nat → List Char → List String
  | 0, _ => []
  | fuel + 1, '{' :: '{' :: rest =>
      match scanInner rest with
      | some (inner, rest2) => (⟨inner⟩ : String) :: findAllGo fuel rest2
      | none => findAllGo fuel ('{' :: rest)
  | fuel + 1, _ :: rest => findAllGo fuel rest
  | _ + 1, [] => []

/-- All inner groups of the expression pattern found in `value`, in order. -/
def findAll (value : String) : List String := findAllGo value.data.length value.data

/-- Python `str.replace(pat, rep)`: replace every non-overlapping occurrence,
scanning left to right.  Fuel is the string length (each step consumes at least
one character); the handler only ever replaces brace-delimited patterns, which
are nonempty, so the emptiness guard is never taken on real inputs. -/
def replaceGo : Nat → List Char → List Char → List Char → List Char
  | 0, s, _, _ => s
  | fuel + 1, s, pat, rep =>
      match s with
      | [] => []
      | c :: rest =>
          if pat.isPrefixOf (c :: rest) && !pat.isEmpty then
            rep ++ replaceGo fuel ((c :: rest).drop pat.length) pat rep
          else
            c :: replaceGo fuel rest pat rep

/-- Python `value.replace(pat, rep)` on strings. -/
def pyReplace (s pat rep : String) : String :=
  ⟨replaceGo s.data.length s.data pat.data rep.data⟩

/-- Splitter for `re.split` on dots and square brackets, keeping empty pieces
(the caller filters them out, as the source does). -/
def splitDotBrackets : List Char → List (List Char)
  | [] => [[]]
  | c :: rest =>
      let r := splitDotBrackets rest
      if c = '.' || c = '[' || c = ']' then [] :: r
      else
        match r with
        | t :: ts => (c :: t) :: ts
        | [] => [[c]]

/-- Key tokens of a dotted expression: split on dots and brackets, drop empty
pieces — the `keys` list of `VariableResolver._resolve_dot_expression`. -/
def exprKeys (s : String) : List String :=
  ((splitDotBrackets s.data).map (fun cs => (⟨cs⟩ : String))).filter (fun k => k ≠ "")

/-! The variable resolver (`atf/core/variable_resolver.py`), value-level
model.  Function-call expressions run arbitrary Python through `importlib` and
`eval`; that collaborator is abstracted as an oracle argument `funcEval`, and
none of the verified scenarios reaches it. -/

/-- One traversal step `value[key]` inside
`VariableResolver._resolve_dot_expression`: an all-digits key indexes a list
(out of range raises IndexError, a string indexes its characters, a dict with
string keys raises KeyError for an integer key); any other key is a dict
lookup whose KeyError the source rewraps as a ValueError, while non-dict
values raise TypeError. -/
def travKey (value : JSON) (key : String) : Except PyErr JSON :=
  if isDigitStr key then
    match value with
    | .arr xs =>
        match JList.get? xs (natOfDigits key.data) with
        | some x => .ok x
        | none => .error .indexError
    | .str s =>
        match s.data.get? (natOfDigits key.data) with
        | some c => .ok (.str ⟨[c]⟩)
        | none => .error .indexError
    | .obj _ => .error (.keyError key)
    | _ => .error .typeError
  else
    match value with
    | .obj kvs =>
        match oLookup kvs key with
        | some v => .ok v
        | none => .error (.valueError ("Key '" ++ key ++ "' not found in " ++ pyStrJ value))
    | _ => .error .typeError

/-- The traversal loop of `_resolve_dot_expression` over the given keys. -/
def travKeys : JSON → List String → Except PyErr JSON
  | v, [] => .ok v
  | v, k :: ks =>
      match travKey v k with
      | .ok v2 => travKeys v2 ks
      | .error e => .error e

/-- `VariableResolver._resolve_dot_expression`.  The root key selects the
scope: a `Global`/`GLOBAL` root forces `global_vars` with the following token
as root key, otherwise `session_vars` is preferred with `global_vars` as
fallback, and absence in both is fatal.  Note that the traversal loop runs
over `keys[1:]` in both cases, exactly as in the source. -/
def resolve_dot_expression (session_vars global_vars : List (String × JSON))
    (expression : String) : Except PyErr JSON :=
  let keys := exprKeys expression
  match keys with
  | [] => .error .indexError
  | root :: rest =>
      if root = "Global" || root = "GLOBAL" then
        match rest with
        | [] => .error .indexError
        | k1 :: _ =>
            match alookup global_vars k1 with
            | some v0 => travKeys v0 rest
            | none => .error (.keyError k1)
      else
        match alookup session_vars root with
        | some v0 => travKeys v0 rest
        | none =>
            match alookup global_vars root with
            | some v0 => travKeys v0 rest
            | none => .error (.valueError (root ++ " not found in session_vars or global_vars"))

/-- `VariableResolver.resolve_variable`: classify the stripped expression as a
function call (contains both parentheses — handled by the `funcEval` oracle),
a dotted/indexed reference, or an unsupported form. -/
def resolve_variable (funcEval : String → Except PyErr JSON)
    (session_vars global_vars : List (String × JSON)) (expression : String) :
    Except PyErr JSON :=
  let e := pyStrip expression
  if e.data.contains '(' && e.data.contains ')' then funcEval e
  else if e.data.contains '.' || e.data.contains '[' then
    resolve_dot_expression session_vars global_vars e
  else .error (.valueError ("Unsupported expression format: " ++ e))

/-- The per-match loop of `VariableResolver._process_string`: resolve each
matched expression (a `Global.`/`GLOBAL.` prefix goes straight to the dotted
resolver), rebuild the matched span in one of the four whitespace-padding
variants, return the typed value when it is numeric/boolean and the whole
current string is exactly that span, and otherwise substitute its string form
into the evolving string. -/
def processMatches (funcEval : String → Except PyErr JSON)
    (session_vars global_vars : List (String × JSON)) :
    List String → String → Except PyErr JSON
  | [], value => .ok (.str value)
  | m :: ms, value =>
      let stripped := pyStrip m
      let res :=
        if pyStartsWith stripped "Global." || pyStartsWith stripped "GLOBAL." then
          resolve_dot_expression session_vars global_vars stripped
        else
          resolve_variable funcEval session_vars global_vars stripped
      match res with
      | .error e => .error e
      | .ok resolved =>
          let newFormat :=
            if headIs m.data ' ' && lastIs m.data ' ' then
              "\x7b\x7b " ++ stripped ++ " \x7d\x7d"
            else if headIs m.data ' ' then
              "\x7b\x7b " ++ stripped ++ "\x7d\x7d"
            else if lastIs m.data ' ' then
              "\x7b\x7b" ++ stripped ++ " \x7d\x7d"
            else
              "\x7b\x7b" ++ stripped ++ "\x7d\x7d"
          if isNumBool resolved && value == newFormat then .ok resolved
          else
            processMatches funcEval session_vars global_vars ms
              (pyReplace value newFormat (pyStrJ resolved))

/-- `VariableResolver._process_string`: find all expression spans in the
original string and run the substitution loop over them. -/
def process_string (funcEval : String → Except PyErr JSON)
    (session_vars global_vars : List (String × JSON)) (value : String) :
    Except PyErr JSON :=
  processMatches funcEval session_vars global_vars (findAll value) value

example : findAll "\x7b\x7b a.n \x7d\x7d" = [" a.n "] := rfl

example :
    process_string (fun _ => .error .typeError)
      [("a", jobj [("n", .int 42)])] [] "\x7b\x7b a.n \x7d\x7d" = .ok (.int 42) := rfl

example :
    process_string (fun _ => .error .typeError)
      [("a", jobj [("n", .int 42)])] [] "x=\x7b\x7b a.n \x7d\x7d" = .ok (.str "x=42") := rfl

example :
    process_string (fun _ => .error .typeError) []
      [("merchant", jobj [("token", .str "xyz-token")])]
      "\x7b\x7b Global.merchant.token \x7d\x7d"
      = .error (.valueError "Key 'merchant' not found in \x7b'token': 'xyz-token'\x7d") := rfl

/-! The SSE response wrapper (`atf/core/request_handler.py`, class
`SSEResponse`).  Events are the parsed event dicts in capture order. -/

/-- A captured server-sent event: a Python dict with keys such as `event`,
`data`, `id`, `retry`. -/
def SSEEvent : Type := List (String × JSON)

/-- Field access `event.get(key, default)` on a captured event. -/
def evGet (ev : SSEEvent) (k : String) (dflt : JSON) : JSON := (alookup ev k).getD dflt

/-- `SSEResponse`: the captured event list, the raw line log and the HTTP
status code; `event_count` is the length of the event list. -/
structure SSEResponse where
  events : List SSEEvent
  raw_lines : List String
  status_code : Int

/-- `SSEResponse.get_event(index)`: the event at `index` when
`0 <= index < len(events)`, else `None`.  A negative index therefore never
retrieves an event. -/
def SSEResponse.get_event (r : SSEResponse) (index : Int) : Option SSEEvent :=
  if 0 ≤ index ∧ index < (r.events.length : Int) then r.events.get? index.toNat else none

/-- `SSEResponse.contains(text)`: some event's stringified `data` contains the
text as a substring. -/
def SSEResponse.containsText (r : SSEResponse) (text : String) : Bool :=
  r.events.any (fun e => pySubstrS text (pyStrJ (evGet e "data" (.str ""))))

/-- One keyword condition of `SSEResponse.find_event`: `data_contains` is a
substring test on the stringified `data` (TypeError for a non-string needle, as
in Python), `event_type` compares the `event` field, anything else compares
the field of the same name. -/
def matchCond (ev : SSEEvent) (k : String) (v : JSON) : Except PyErr Bool :=
  if k = "data_contains" then
    match v with
    | .str t => .ok (pySubstrS t (pyStrJ (evGet ev "data" (.str ""))))
    | _ => .error .typeError
  else if k = "event_type" then .ok (pyEqJ (evGet ev "event" .null) v)
  else .ok (pyEqJ (evGet ev k .null) v)

/-- All keyword conditions evaluated against one event.  The source keeps
iterating after a failed condition (it only clears the `match` flag), so a
later condition can still raise. -/
def matchEvent (ev : SSEEvent) : List (String × JSON) → Except PyErr Bool
  | [] => .ok true
  | (k, v) :: rest =>
      match matchCond ev k v with
      | .error e => .error e
      | .ok b =>
          match matchEvent ev rest with
          | .error e => .error e
          | .ok r => .ok (b && r)

/-- `SSEResponse.find_event(**conds)`: the first event satisfying every
condition, `None` when there is none. -/
def find_event (conds : List (String × JSON)) : List SSEEvent → Except PyErr (Option SSEEvent)
  | [] => .ok none
  | ev :: rest =>
      match matchEvent ev conds with
      | .error e => .error e
      | .ok true => .ok (some ev)
      | .ok false => find_event conds rest

/-! The assertion evaluator (`atf/core/assert_handler.py`, class
`AssertHandler`). -/

/-- The response value handed to `handle_assertion`: either parsed JSON (with
an injected `_status_code` for HTTP) or a captured SSE stream object. -/
inductive Response where
  | json (j : JSON)
  | sse (r : SSEResponse)

/-- A dynamic Python value flowing through field extraction: a JSON value or
the SSE response object itself (which `get_field_value` returns for a path
with no tokens). -/
inductive DynVal where
  | ofJson (j : JSON)
  | ofSSE (r : SSEResponse)

/-- Python's `None` as a dynamic value. -/
def dynNull : DynVal := .ofJson .null

/-- The `value is None` test on a dynamic value (an SSE object is never
`None`). -/
def DynVal.isNullD : DynVal → Bool
  | .ofJson .null => true
  | _ => false

/-- Python `==` between an extracted field value and a spec value: an SSE
object never equals a JSON value (object identity comparison). -/
def dynEq : DynVal → JSON → Bool
  | .ofJson j, e => pyEqJ j e
  | .ofSSE _, _ => false

/-- Python `str` of a dynamic value.  The default object `repr` of an
`SSEResponse` instance (which embeds a memory address) is abstracted by a
fixed tag; no verified scenario stringifies the SSE object. -/
def dynStr : DynVal → String
  | .ofJson j => pyStrJ j
  | .ofSSE _ => "<SSEResponse>"

/-- A field-path token of `AssertHandler.get_field_value`: a bare name or a
name with an index. -/
inductive FTok where
  | fld (name : String)
  | idx (name : String) (i : Nat)

/-- Start characters of the identifier class of the field-path pattern. -/
def isIdentStart (c : Char) : Bool :=
  ('a' ≤ c && c ≤ 'z') || ('A' ≤ c && c ≤ 'Z') || c = '_'

/-- Word characters of the field-path pattern (ASCII, as used by every field
path in the repository). -/
def isWordChar (c : Char) : Bool := isIdentStart c || c.isDigit

/-- Scanner equivalent to iterating the field-path pattern's matches: at an
identifier start, take the maximal identifier; when it is immediately followed
by a bracketed all-digits index, the indexed alternative matches, otherwise
the bare-name alternative does and scanning resumes right after the name.
Non-identifier characters are skipped.  Fuel is the remaining length; every
step consumes at least one character. -/
def ftokGo : Nat → List Char → List FTok
  | 0, _ => []
  | _ + 1, [] => []
  | fuel + 1, c :: rest =>
      if isIdentStart c then
        let name : String := ⟨c :: rest.takeWhile isWordChar⟩
        let after := rest.dropWhile isWordChar
        match after with
        | '[' :: a2 =>
            match a2.takeWhile Char.isDigit, a2.dropWhile Char.isDigit with
            | [], _ => .fld name :: ftokGo fuel after
            | ds, ']' :: a4 => .idx name (natOfDigits ds) :: ftokGo fuel a4
            | _, _ => .fld name :: ftokGo fuel after
        | _ => .fld name :: ftokGo fuel after
      else ftokGo fuel rest

/-- All field-path tokens of a path string, in order. -/
def ftokenize (s : String) : List FTok := ftokGo s.data.length s.data

/-- One step of `get_field_value`'s loop: a bare name reads a dict key
(default `None`, `None` for non-dicts); an indexed name reads the key with
default `[]` (`None` for non-dicts) and then indexes only a list of sufficient
length, `None` otherwise. -/
def applyFTok (value : DynVal) : FTok → DynVal
  | .fld name =>
      match value with
      | .ofJson (.obj kvs) => .ofJson ((oLookup kvs name).getD .null)
      | _ => dynNull
  | .idx name i =>
      let v1 : JSON :=
        match value with
        | .ofJson (.obj kvs) => (oLookup kvs name).getD (.arr .nil)
        | _ => .null
      match v1 with
      | .arr xs =>
          match JList.get? xs i with
          | some x => .ofJson x
          | none => dynNull
      | _ => dynNull

/-- The token loop of `get_field_value`, stopping as soon as the running value
becomes `None`. -/
def walkFToks : DynVal → List FTok → DynVal
  | value, [] => value
  | value, t :: ts =>
      let v2 := applyFTok value t
      if v2.isNullD then v2 else walkFToks v2 ts

/-- `AssertHandler.get_field_value(response, field_path)`: total and
null-propagating field extraction over the response. -/
def get_field_value (response : Response) (field_path : String) : DynVal :=
  walkFToks
    (match response with
     | .json j => .ofJson j
     | .sse r => .ofSSE r)
    (ftokenize field_path)

/-- Splitter for `field_path.split('.')`, keeping empty pieces as Python
does. -/
def splitDotL : List Char → List (List Char)
  | [] => [[]]
  | c :: rest =>
      let r := splitDotL rest
      if c = '.' then [] :: r
      else
        match r with
        | t :: ts => (c :: t) :: ts
        | [] => [[c]]

def splitDotKeep (s : String) : List String := (splitDotL s.data).map (fun cs => (⟨cs⟩ : String))

/-- The key loop of `AssertHandler._get_nested_value`: read dict keys in turn,
returning `None` as soon as the running value is not a dict. -/
def nestedWalk : JSON → List String → JSON
  | v, [] => v
  | v, k :: ks =>
      match v with
      | .obj kvs => nestedWalk ((oLookup kvs k).getD .null) ks
      | _ => .null

/-- `AssertHandler._get_nested_value(data, field_path)`: a falsy path or a
non-dict data value is returned unchanged; otherwise the path (which must be a
string — Python would raise AttributeError on `split`) is split on dots and
walked. -/
def get_nested_value (data : JSON) (field_path : JSON) : Except PyErr JSON :=
  if !pyTruthy field_path || !isObjJ data then .ok data
  else
    match field_path with
    | .str s => .ok (nestedWalk data (splitDotKeep s))
    | _ => .error .attributeError

mutual
/-- The inner `_check_contains(obj, target)` of the `contains` assertion:
dicts search their values, lists their items, a string leaf is a substring
test (Python raises TypeError when the target is not a string), and any other
leaf compares stringified forms. -/
def check_contains (target : JSON) : JSON → Except PyErr Bool
  | .obj kvs => ccO target kvs
  | .arr xs => ccL target xs
  | .str s =>
      match target with
      | .str t => .ok (pySubstrS t s)
      | _ => .error .typeError
  | leaf => .ok (pyStrJ leaf == pyStrJ target)
termination_by structural j => j
/-- Short-circuiting `any` of `_check_contains` over list items. -/
def ccL (target : JSON) : JList → Except PyErr Bool
  | .nil => .ok false
  | .cons x tl =>
      match check_contains target x with
      | .error e => .error e
      | .ok true => .ok true
      | .ok false => ccL target tl
termination_by structural xs => xs
/-- Short-circuiting `any` of `_check_contains` over dict values. -/
def ccO (target : JSON) : JObj → Except PyErr Bool
  | .nil => .ok false
  | .cons _ v tl =>
      match check_contains target v with
      | .error e => .error e
      | .ok true => .ok true
      | .ok false => ccO target tl
termination_by structural kvs => kvs
end

/-- `_check_contains` applied to the whole response object: an SSE object is
not a dict/list/string, so it falls into the stringified-leaf comparison. -/
def check_contains_resp (target : JSON) : Response → Except PyErr Bool
  | .json j => check_contains target j
  | .sse r => .ok (dynStr (.ofSSE r) == pyStrJ target)

/-- Python `str` of the response (used in assertion messages). -/
def respStr : Response → String
  | .json j => pyStrJ j
  | .sse r => dynStr (.ofSSE r)

/-- The semantics of an open database connection: each query yields the first
fetched row (a list of column values) or no row.  This abstracts the MySQL
server that `mysql.connector` talks to. -/
def DBConn : Type := String → Option (List JSON)

/-- Observable actions of one `handle_assertion` call, in order: the start of
one assertion spec's evaluation, the opening of the shared connection, and the
execution of a query. -/
inductive Effect where
  | evalStart (a : List (String × JSON))
  | connect
  | runQuery (q : String)

/-- An assertion spec is the Python dict the caller supplies. -/
def Spec : Type := List (String × JSON)

/-- `assertion.get(key)` on a spec: `None` when the key is absent. -/
def sget (a : Spec) (k : String) : JSON := (alookup a k).getD .null

/-- `key in assertion` on a spec. -/
def shas (a : Spec) (k : String) : Bool := (alookup a k).isSome

/-- Python `str` of an assertion spec dict (for error messages). -/
def specStr (a : Spec) : String := pyStrJ (.obj (JObj.ofList a))

/-- Python `t in names` for the spec's `type` value against a list of string
literals. -/
def tin (t : JSON) (names : List String) : Bool := names.any (fun s => pyEqJ t (.str s))

/-- `AssertHandler._execute_query`: with no open connection Python fails with
AttributeError on `None.cursor()`; otherwise the query runs (one `runQuery`
effect) and the fetched row collapses to its first column, `None` when no row
was returned. -/
def execute_query (conn : Option DBConn) (query : String) :
    List Effect × Except PyErr JSON :=
  match conn with
  | none => ([], .error .attributeError)
  | some db =>
      ([.runQuery query],
       .ok (match db query with
            | some (c :: _) => c
            | _ => .null))

/-- `AssertHandler._validate_mysql_query`: the query text must be a string for
the cursor to execute it; the collapsed result must equal `expected`. -/
def validate_mysql_query (conn : Option DBConn) (query expected : JSON) :
    List Effect × Except PyErr Unit :=
  match query with
  | .str q =>
      let p := execute_query conn q
      (p.1,
       match p.2 with
       | .error e => .error e
       | .ok result =>
           assertTrue (pyEqJ result expected)
             ("Expected " ++ pyStrJ expected ++ ", but got " ++ pyStrJ result))
  | _ => ([], .error .typeError)

/-- `AssertHandler._validate_mysql_query_exists`: the collapsed result must
not be `None`.  Because `_execute_query` collapses a row to its first column,
a returned row whose first column is NULL also fails here. -/
def validate_mysql_query_exists (conn : Option DBConn) (query : JSON) :
    List Effect × Except PyErr Unit :=
  match query with
  | .str q =>
      let p := execute_query conn q
      (p.1,
       match p.2 with
       | .error e => .error e
       | .ok result =>
           assertTrue (!isNullJ result) "Expected query to return results, but got None")
  | _ => ([], .error .typeError)

/-- `AssertHandler._validate_mysql_query_true`: the collapsed result must be
truthy. -/
def validate_mysql_query_true (conn : Option DBConn) (query : JSON) :
    List Effect × Except PyErr Unit :=
  match query with
  | .str q =>
      let p := execute_query conn q
      (p.1,
       match p.2 with
       | .error e => .error e
       | .ok result =>
           assertTrue (pyTruthy result)
             ("Expected query result to be True, but got " ++ pyStrJ result))
  | _ => ([], .error .typeError)

/-- Python `len()` on a dynamic value: strings, lists and dicts are sized,
everything else raises TypeError. -/
def pyLen : DynVal → Except PyErr Int
  | .ofJson (.str s) => .ok s.data.length
  | .ofJson (.arr xs) => .ok (JList.len xs)
  | .ofJson (.obj kvs) => .ok (oLen kvs)
  | _ => .error .typeError

/-- The `length` assertion body: the extracted value must not be `None`; a
TypeError from `len` is rewrapped as a ValueError; the length must equal
`expected`. -/
def lengthCheck (field_value : DynVal) (fieldJ expected : JSON) : Except PyErr Unit :=
  if field_value.isNullD then
    .error (.assertionError
      ("Expected field " ++ pyStrJ fieldJ ++ " not to be None for length assertion"))
  else
    match pyLen field_value with
    | .error _ =>
        .error (.valueError
          ("length 断言不支持该类型: field=" ++ pyStrJ fieldJ ++ ", value=" ++ dynStr field_value))
    | .ok n =>
        assertTrue (pyEqJ (.int n) expected)
          ("Expected length " ++ pyStrJ expected ++ ", but got " ++ toString n)

/-- Python `x in container`: element search in a list, substring test in a
string (the left operand must be a string), key membership in a dict
(unhashable left operands raise TypeError); other containers raise
TypeError. -/
def pyIn (x : DynVal) (container : JSON) : Except PyErr Bool :=
  match container with
  | .arr xs => .ok (JList.anyB (fun e => dynEq x e) xs)
  | .str s =>
      match x with
      | .ofJson (.str t) => .ok (pySubstrS t s)
      | _ => .error .typeError
  | .obj kvs =>
      match x with
      | .ofJson (.str t) => .ok (oLookup kvs t).isSome
      | .ofJson (.arr _) => .error .typeError
      | .ofJson (.obj _) => .error .typeError
      | _ => .ok false
  | _ => .error .typeError

/-- Conversion of the `index` spec value for `get_event`'s integer
comparisons: ints and bools are usable, anything else raises TypeError. -/
def toIntIdx : JSON → Except PyErr Int
  | .int n => .ok n
  | .bool b => .ok (if b then 1 else 0)
  | _ => .error .typeError

/-- `AssertHandler._validate_sse_event_count`: the exact, minimum and maximum
bounds are each checked only when present, in that order.  A JSON response has
no `event_count` attribute. -/
def validate_sse_event_count (response : Response) (a : Spec) : Except PyErr Unit :=
  match response with
  | .json _ => .error .attributeError
  | .sse r =>
      let count : Int := r.events.length
      let expectedJ := sget a "expected"
      let minJ := sget a "min"
      let maxJ := sget a "max"
      match
        (if isNullJ expectedJ then .ok ()
         else
           assertTrue (pyEqJ (.int count) expectedJ)
             ("SSE 事件数量期望 " ++ pyStrJ expectedJ ++ "，实际 " ++ toString count)) with
      | .error e => .error e
      | .ok _ =>
          match
            (if isNullJ minJ then .ok ()
             else
               match minJ with
               | .int m =>
                   assertTrue (m ≤ count)
                     ("SSE 事件数量至少 " ++ pyStrJ minJ ++ "，实际 " ++ toString count)
               | .bool b =>
                   assertTrue ((if b then (1 : Int) else 0) ≤ count)
                     ("SSE 事件数量至少 " ++ pyStrJ minJ ++ "，实际 " ++ toString count)
               | _ => .error .typeError) with
          | .error e => .error e
          | .ok _ =>
              if isNullJ maxJ then .ok ()
              else
                match maxJ with
                | .int m =>
                    assertTrue (count ≤ m)
                      ("SSE 事件数量最多 " ++ pyStrJ maxJ ++ "，实际 " ++ toString count)
                | .bool b =>
                    assertTrue (count ≤ (if b then (1 : Int) else 0))
                      ("SSE 事件数量最多 " ++ pyStrJ maxJ ++ "，实际 " ++ toString count)
                | _ => .error .typeError

/-- `AssertHandler._validate_sse_contains`: substring search across all
events' stringified `data`.  A non-string needle raises TypeError inside the
generator as soon as one event exists; with no events `any` is simply
false. -/
def validate_sse_contains (response : Response) (a : Spec) : Except PyErr Unit :=
  match response with
  | .json _ => .error .attributeError
  | .sse r =>
      let expectedJ := sget a "expected"
      match expectedJ with
      | .str t => assertTrue (r.containsText t) ("SSE 事件中未找到文本: " ++ t)
      | other =>
          if r.events.isEmpty then
            assertTrue false ("SSE 事件中未找到文本: " ++ pyStrJ other)
          else .error .typeError

/-- `AssertHandler._validate_sse_event_exists`: build the condition dict from
the keys present in the spec (in source order `event_type`, `data_contains`)
and require a matching event. -/
def validate_sse_event_exists (response : Response) (a : Spec) : Except PyErr Unit :=
  match response with
  | .json _ => .error .attributeError
  | .sse r =>
      let conds :=
        (if shas a "event_type" then [("event_type", sget a "event_type")] else [])
          ++ (if shas a "data_contains" then [("data_contains", sget a "data_contains")] else [])
      match find_event conds r.events with
      | .error e => .error e
      | .ok (some _) => .ok ()
      | .ok none =>
          .error (.assertionError
            ("未找到满足条件的 SSE 事件: " ++ pyStrJ (.obj (JObj.ofList conds))))

/-- `AssertHandler._validate_sse_event_field`: fetch the event at `index`
(default 0), then compare the nested field of its `data` with `expected`. -/
def validate_sse_event_field (response : Response) (a : Spec) : Except PyErr Unit :=
  match response with
  | .json _ => .error .attributeError
  | .sse r =>
      let indexJ := (alookup a "index").getD (.int 0)
      let fieldJ := sget a "field"
      let expectedJ := sget a "expected"
      match toIntIdx indexJ with
      | .error e => .error e
      | .ok i =>
          match r.get_event i with
          | none => .error (.assertionError ("SSE 事件索引 " ++ pyStrJ indexJ ++ " 不存在"))
          | some ev =>
              match get_nested_value (evGet ev "data" (.obj .nil)) fieldJ with
              | .error e => .error e
              | .ok value =>
                  assertTrue (pyEqJ value expectedJ)
                    ("SSE 事件[" ++ pyStrJ indexJ ++ "]." ++ pyStrJ fieldJ ++ " 期望 "
                      ++ pyStrJ expectedJ ++ "，实际 " ++ pyStrJ value)

/-- `AssertHandler._validate_sse_last_event`: fetch the event at index `-1`
(which `get_event`'s bounds check always rejects), then apply the optional
`event_type`, `data_contains` and `field`+`expected` checks. -/
def validate_sse_last_event (response : Response) (a : Spec) : Except PyErr Unit :=
  match response with
  | .json _ => .error .attributeError
  | .sse r =>
      match r.get_event (-1) with
      | none => .error (.assertionError "没有收到任何 SSE 事件")
      | some ev =>
          match
            (if shas a "event_type" then
               assertTrue (pyEqJ (evGet ev "event" .null) (sget a "event_type"))
                 ("最后事件类型期望 " ++ pyStrJ (sget a "event_type") ++ "，实际 "
                   ++ pyStrJ (evGet ev "event" .null))
             else .ok ()) with
          | .error e => .error e
          | .ok _ =>
              match
                (if shas a "data_contains" then
                   match sget a "data_contains" with
                   | .str t =>
                       assertTrue (pySubstrS t (pyStrJ (evGet ev "data" (.str ""))))
                         ("最后事件未包含: " ++ t)
                   | _ => .error .typeError
                 else .ok ()) with
              | .error e => .error e
              | .ok _ =>
                  if shas a "field" && shas a "expected" then
                    match get_nested_value (evGet ev "data" (.obj .nil)) (sget a "field") with
                    | .error e => .error e
                    | .ok v =>
                        assertTrue (pyEqJ v (sget a "expected"))
                          ("最后事件 " ++ pyStrJ (sget a "field") ++ " 期望 "
                            ++ pyStrJ (sget a "expected") ++ "，实际 " ++ pyStrJ v)
                  else .ok ()

/-- Field extraction of the per-assertion loop:
`get_field_value(response, field_path) if field_path else None`.  A truthy
non-string path would make `re.finditer` raise TypeError. -/
def fieldValueOf (response : Response) (field_path : JSON) : Except PyErr DynVal :=
  if pyTruthy field_path then
    match field_path with
    | .str s => .ok (get_field_value response s)
    | _ => .error .typeError
  else .ok dynNull

/-- The dispatch chain of `handle_assertion`'s loop body, after the
required-field checks and field extraction, in source order. -/
def dispatchAssertion (conn : Option DBConn) (response : Response) (a : Spec)
    (field_value : DynVal) : List Effect × Except PyErr Unit :=
  let t := sget a "type"
  let expected := sget a "expected"
  let container := sget a "container"
  let query := sget a "query"
  if tin t ["status_code", "status"] then
    ([],
     match response with
     | .json (.obj kvs) =>
         assertTrue (pyEqJ ((oLookup kvs "_status_code").getD .null) expected)
           ("Expected status code " ++ pyStrJ expected ++ ", but got "
             ++ pyStrJ ((oLookup kvs "_status_code").getD .null))
     | .json _ => .error .attributeError
     | .sse r =>
         assertTrue (pyEqJ (.int r.status_code) expected)
           ("Expected status code " ++ pyStrJ expected ++ ", but got "
             ++ pyStrJ (.int r.status_code)))
  else if tin t ["equal", "equals"] then
    ([], assertTrue (dynEq field_value expected)
           ("Expected " ++ pyStrJ expected ++ ", but got " ++ dynStr field_value))
  else if tin t ["not equal", "not_equal", "not_equals"] then
    ([], assertTrue (!dynEq field_value expected)
           ("Expected not " ++ pyStrJ expected ++ ", but got " ++ dynStr field_value))
  else if tin t ["exists", "exist"] then
    ([], assertTrue (!field_value.isNullD)
           ("Expected field " ++ pyStrJ (sget a "field") ++ " to exist, but got None"))
  else if tin t ["is_none", "is None", "None"] then
    ([], assertTrue field_value.isNullD ("Expected None, but got " ++ dynStr field_value))
  else if tin t ["is_not_none", "is not None", "not None"] then
    ([], assertTrue (!field_value.isNullD) ("Expected not None, but got " ++ dynStr field_value))
  else if pyEqJ t (.str "length") then
    ([], lengthCheck field_value (sget a "field") expected)
  else if pyEqJ t (.str "in") then
    ([],
     match pyIn field_value container with
     | .error e => .error e
     | .ok b =>
         assertTrue b ("Expected " ++ dynStr field_value ++ " to be in " ++ pyStrJ container))
  else if tin t ["not in", "not_in"] then
    ([],
     match pyIn field_value container with
     | .error e => .error e
     | .ok b =>
         assertTrue (!b)
           ("Expected " ++ dynStr field_value ++ " to be not in " ++ pyStrJ container))
  else if tin t ["contains", "contain"] then
    ([],
     match check_contains_resp expected response with
     | .error e => .error e
     | .ok b =>
         assertTrue b ("Expected " ++ pyStrJ expected ++ " to be in " ++ respStr response))
  else if pyEqJ t (.str "mysql_query") then validate_mysql_query conn query expected
  else if pyEqJ t (.str "mysql_query_exists") then validate_mysql_query_exists conn query
  else if pyEqJ t (.str "mysql_query_true") then validate_mysql_query_true conn query
  else if pyEqJ t (.str "sse_event_count") then ([], validate_sse_event_count response a)
  else if pyEqJ t (.str "sse_contains") then ([], validate_sse_contains response a)
  else if pyEqJ t (.str "sse_event_exists") then ([], validate_sse_event_exists response a)
  else if pyEqJ t (.str "sse_event_field") then ([], validate_sse_event_field response a)
  else if pyEqJ t (.str "sse_last_event") then ([], validate_sse_last_event response a)
  else ([], .error (.valueError ("未知的断言类型: " ++ pyStrJ t)))

/-- One iteration of `handle_assertion`'s loop: required-field checks in
source order, field extraction, then dispatch.  The first effect records that
this spec's evaluation started. -/
def evalAssertion (conn : Option DBConn) (response : Response) (a : Spec) :
    List Effect × Except PyErr Unit :=
  let t := sget a "type"
  let field_path := sget a "field"
  let expected := sget a "expected"
  let container := sget a "container"
  if !pyTruthy field_path
      && !tin t ["mysql_query", "mysql_query_exists", "mysql_query_true", "contains",
                 "contain", "status_code", "status"] then
    ([.evalStart a], .error (.valueError ("断言的 'field' 不能为空: " ++ specStr a)))
  else if tin t ["equal", "equals", "not equal", "not_equal", "not_equals"]
      && isNullJ expected then
    ([.evalStart a], .error (.valueError ("断言的 'expected' 不能为空: " ++ specStr a)))
  else if pyEqJ t (.str "length") && isNullJ expected then
    ([.evalStart a], .error (.valueError ("断言的 'expected' 不能为空: " ++ specStr a)))
  else if tin t ["in", "not in", "not_in"] && isNullJ container then
    ([.evalStart a], .error (.valueError ("断言的 'container' 不能为空: " ++ specStr a)))
  else
    match fieldValueOf response field_path with
    | .error e => ([.evalStart a], .error e)
    | .ok field_value =>
        let p := dispatchAssertion conn response a field_value
        (.evalStart a :: p.1, p.2)

/-- The eager pre-scan
`any(assertion['type'].startswith('mysql') for assertion in asserts)`:
subscripting a spec without `type` raises KeyError, a non-string `type` has no
`startswith`, and the scan stops at the first mysql-typed spec. -/
def prescanMysql : List Spec → Except PyErr Bool
  | [] => .ok false
  | a :: rest =>
      match alookup a "type" with
      | none => .error (.keyError "type")
      | some (.str t) => if pyStartsWith t "mysql" then .ok true else prescanMysql rest
      | some _ => .error .attributeError

/-- The assertion loop: evaluate each spec in list order, stopping at the
first failure; effects accumulate in order. -/
def runAsserts (conn : Option DBConn) (response : Response) :
    List Spec → List Effect × Except PyErr Unit
  | [] => ([], .ok ())
  | a :: rest =>
      let p := evalAssertion conn response a
      match p.2 with
      | .error e => (p.1, .error e)
      | .ok _ =>
          let q := runAsserts conn response rest
          (p.1 ++ q.1, q.2)

/-- `AssertHandler.handle_assertion(asserts, response, db_config)`: pre-scan
for mysql-typed specs; when one exists a missing `db_config` is fatal before
anything is evaluated, and otherwise one shared connection is opened for the
whole call; then the specs run in list order.  The `db_config` argument is
modelled by the connection semantics it would produce. -/
def handle_assertion (asserts : List Spec) (response : Response)
    (db_config : Option DBConn) : List Effect × Except PyErr Unit :=
  match prescanMysql asserts with
  | .error e => ([], .error e)
  | .ok true =>
      match db_config with
      | none => ([], .error (.valueError "数据库配置 db_config 不能为空，因为有 MySQL 相关断言"))
      | some db =>
          let p := runAsserts (some db) response asserts
          (.connect :: p.1, p.2)
  | .ok false => runAsserts none response asserts

/-! Store-level model of `VariableResolver.process_value` /
`VariableResolver.process_data`, used to express the frame property: every
Python dict/list is a cell in a heap, the resolver only reads cells, and
`process_value` rebuilds dicts/lists by allocating fresh cells, never writing
to an existing one.  The variable scopes are the dict cells `svRef` and
`gvRef` point to. -/

/-- A runtime value of the store-level model: scalars are immediate, every
dict/list is a reference into the heap. -/
inductive HVal where
  | null
  | bool (b : Bool)
  | int (n : Int)
  | str (s : String)
  | ref (id : Nat)
  deriving Repr, DecidableEq

/-- A heap cell: the contents of one Python dict or list object. -/
inductive HCont where
  | dict (kvs : List (String × HVal))
  | list (xs : List HVal)
  deriving Repr, DecidableEq

/-- First-match lookup among heap cells. -/
def lookupCells : List (Nat × HCont) → Nat → Option HCont
  | [], _ => none
  | (i, c) :: tl, q => if i = q then some c else lookupCells tl q

/-- The object heap: allocated cells and the next fresh address. -/
structure Heap where
  cells : List (Nat × HCont)
  next : Nat

def Heap.lookup (h : Heap) (id : Nat) : Option HCont := lookupCells h.cells id

/-- Allocation of a new cell at the next fresh address.  New cells are
appended, so lookups of previously allocated addresses are unaffected. -/
def Heap.alloc (h : Heap) (c : HCont) : Heap × Nat :=
  (⟨h.cells ++ [(h.next, c)], h.next + 1⟩, h.next)

/-- Well-formedness: every allocated address is below the fresh-address
counter. -/
def Heap.wf (h : Heap) : Prop := ∀ p ∈ h.cells, p.1 < h.next

/-- Heap evolution under the model's operations: the fresh counter grows and
every existing cell keeps its contents — no in-place mutation. -/
def Heap.preserves (h h2 : Heap) : Prop :=
  h.next ≤ h2.next ∧ ∀ id c, h.lookup id = some c → h2.lookup id = some c

/-- Lookup in the entries of a dict cell. -/
def hDictLookup : List (String × HVal) → String → Option HVal
  | [], _ => none
  | (k, v) :: tl, q => if k = q then some v else hDictLookup tl q

/-- Comma-joined repr of list-cell elements under a value renderer. -/
def renderJoin (f : HVal → Option String) : List HVal → Option String
  | [] => some ""
  | [x] => f x
  | x :: y :: tl =>
      match f x, renderJoin f (y :: tl) with
      | some s, some rest => some (s ++ ", " ++ rest)
      | _, _ => none

/-- Comma-joined repr of dict-cell entries under a value renderer. -/
def renderJoinKV (f : HVal → Option String) : List (String × HVal) → Option String
  | [] => some ""
  | [(k, v)] => (f v).map (fun s => "'" ++ k ++ "': " ++ s)
  | (k, v) :: e :: tl =>
      match f v, renderJoinKV f (e :: tl) with
      | some s, some rest => some ("'" ++ k ++ "': " ++ s ++ ", " ++ rest)
      | _, _ => none

/-- Python `repr` of a store-level value; `none` models Python's recursion
limit on cyclic structures (and dangling references, which Python cannot
produce). -/
def hReprV : Nat → Heap → HVal → Option String
  | _, _, .null => some "None"
  | _, _, .bool true => some "True"
  | _, _, .bool false => some "False"
  | _, _, .int n => some (toString n)
  | _, _, .str s => some ("'" ++ s ++ "'")
  | 0, _, .ref _ => none
  | fuel + 1, h, .ref id =>
      match h.lookup id with
      | none => none
      | some (.dict kvs) =>
          (renderJoinKV (fun v => hReprV fuel h v) kvs).map
            (fun s => "\x7b" ++ s ++ "\x7d")
      | some (.list xs) =>
          (renderJoin (fun v => hReprV fuel h v) xs).map (fun s => "[" ++ s ++ "]")

/-- Python `str` of a store-level value. -/
def hStrV (fuel : Nat) (h : Heap) (v : HVal) : Option String :=
  match v with
  | .str s => some s
  | v => hReprV fuel h v

/-- Store-level `value[key]` step of `_resolve_dot_expression`, reading (never
writing) the heap; mirrors `travKey` of the value-level model.  The dict-repr
in the KeyError message is rendered with the given fuel. -/
def hTravKey (fuel : Nat) (h : Heap) (value : HVal) (key : String) : Except PyErr HVal :=
  if isDigitStr key then
    match value with
    | .ref id =>
        match h.lookup id with
        | some (.list xs) =>
            match xs.get? (natOfDigits key.data) with
            | some x => .ok x
            | none => .error .indexError
        | some (.dict _) => .error (.keyError key)
        | none => .error .typeError
    | .str s =>
        match s.data.get? (natOfDigits key.data) with
        | some c => .ok (.str ⟨[c]⟩)
        | none => .error .indexError
    | _ => .error .typeError
  else
    match value with
    | .ref id =>
        match h.lookup id with
        | some (.dict kvs) =>
            match hDictLookup kvs key with
            | some v => .ok v
            | none =>
                .error (.valueError
                  ("Key '" ++ key ++ "' not found in " ++ (hStrV fuel h value).getD ""))
        | some (.list _) => .error .typeError
        | none => .error .typeError
    | _ => .error .typeError

/-- Store-level traversal loop over the keys. -/
def hTravKeys (fuel : Nat) (h : Heap) : HVal → List String → Except PyErr HVal
  | v, [] => .ok v
  | v, k :: ks =>
      match hTravKey fuel h v k with
      | .ok v2 => hTravKeys fuel h v2 ks
      | .error e => .error e

/-- The entries of the dict cell a scope reference points to (a scope is
always a dict in Python). -/
def heapDict (h : Heap) (id : Nat) : List (String × HVal) :=
  match h.lookup id with
  | some (.dict kvs) => kvs
  | _ => []

/-- Store-level `_resolve_dot_expression`: identical control flow to the
value-level model, with scope lookups reading the dict cells at `svRef` and
`gvRef`. -/
def h_resolve_dot_expression (fuel : Nat) (h : Heap) (svRef gvRef : Nat)
    (expression : String) : Except PyErr HVal :=
  let keys := exprKeys expression
  match keys with
  | [] => .error .indexError
  | root :: rest =>
      if root = "Global" || root = "GLOBAL" then
        match rest with
        | [] => .error .indexError
        | k1 :: _ =>
            match hDictLookup (heapDict h gvRef) k1 with
            | some v0 => hTravKeys fuel h v0 rest
            | none => .error (.keyError k1)
      else
        match hDictLookup (heapDict h svRef) root with
        | some v0 => hTravKeys fuel h v0 rest
        | none =>
            match hDictLookup (heapDict h gvRef) root with
            | some v0 => hTravKeys fuel h v0 rest
            | none => .error (.valueError (root ++ " not found in session_vars or global_vars"))

/-- Store-level numeric/boolean test of `isinstance(x, (int, float, bool))`. -/
def isNumBoolH : HVal → Bool
  | .int _ => true
  | .bool _ => true
  | _ => false

/-- Store-level `resolve_variable` with the function-call oracle. -/
def h_resolve_variable (fuel : Nat) (funcEval : String → Except PyErr HVal)
    (h : Heap) (svRef gvRef : Nat) (expression : String) : Except PyErr HVal :=
  let e := pyStrip expression
  if e.data.contains '(' && e.data.contains ')' then funcEval e
  else if e.data.contains '.' || e.data.contains '[' then
    h_resolve_dot_expression fuel h svRef gvRef e
  else .error (.valueError ("Unsupported expression format: " ++ e))

/-- Store-level per-match loop of `_process_string`; resolution only reads the
heap, and substitution builds new strings, so no heap is returned. -/
def hProcessMatches (fuel : Nat) (funcEval : String → Except PyErr HVal)
    (h : Heap) (svRef gvRef : Nat) : List String → String → Except PyErr HVal
  | [], value => .ok (.str value)
  | m :: ms, value =>
      let stripped := pyStrip m
      let res :=
        if pyStartsWith stripped "Global." || pyStartsWith stripped "GLOBAL." then
          h_resolve_dot_expression fuel h svRef gvRef stripped
        else
          h_resolve_variable fuel funcEval h svRef gvRef stripped
      match res with
      | .error e => .error e
      | .ok resolved =>
          let newFormat :=
            if headIs m.data ' ' && lastIs m.data ' ' then
              "\x7b\x7b " ++ stripped ++ " \x7d\x7d"
            else if headIs m.data ' ' then
              "\x7b\x7b " ++ stripped ++ "\x7d\x7d"
            else if lastIs m.data ' ' then
              "\x7b\x7b" ++ stripped ++ " \x7d\x7d"
            else
              "\x7b\x7b" ++ stripped ++ "\x7d\x7d"
          if isNumBoolH resolved && value == newFormat then .ok resolved
          else
            match hStrV fuel h resolved with
            | none => .error .recursionError
            | some rendered =>
                hProcessMatches fuel funcEval h svRef gvRef ms
                  (pyReplace value newFormat rendered)

/-- Store-level `_process_string`. -/
def h_process_string (fuel : Nat) (funcEval : String → Except PyErr HVal)
    (h : Heap) (svRef gvRef : Nat) (value : String) : Except PyErr HVal :=
  hProcessMatches fuel funcEval h svRef gvRef (findAll value) value

/-- The dict comprehension of `process_value`: process every entry value in
order, threading the heap through `f`. -/
def hProcessDict (f : Heap → HVal → Except PyErr (Heap × HVal)) :
    Heap → List (String × HVal) → Except PyErr (Heap × List (String × HVal))
  | h, [] => .ok (h, [])
  | h, (k, v) :: tl =>
      match f h v with
      | .error e => .error e
      | .ok (h2, v2) =>
          match hProcessDict f h2 tl with
          | .error e => .error e
          | .ok (h3, tl2) => .ok (h3, (k, v2) :: tl2)

/-- The list comprehension of `process_value`: process every element in
order, threading the heap through `f`. -/
def hProcessList (f : Heap → HVal → Except PyErr (Heap × HVal)) :
    Heap → List HVal → Except PyErr (Heap × List HVal)
  | h, [] => .ok (h, [])
  | h, v :: tl =>
      match f h v with
      | .error e => .error e
      | .ok (h2, v2) =>
          match hProcessList f h2 tl with
          | .error e => .error e
          | .ok (h3, tl2) => .ok (h3, v2 :: tl2)

/-- Store-level `VariableResolver.process_value`: a string containing both an
opening and a closing double brace goes through `_process_string`; a dict/list
is rebuilt by processing its contents and allocating a fresh cell; other
scalars pass through.  Fuel bounds the recursion depth (Python's recursion
limit). -/
def process_value_h : Nat → (String → Except PyErr HVal) → Nat → Nat → Heap → HVal →
    Except PyErr (Heap × HVal)
  | 0, _, _, _, _, _ => .error .recursionError
  | fuel + 1, funcEval, svRef, gvRef, h, v =>
      match v with
      | .str s =>
          if pySubstrS "\x7b\x7b" s && pySubstrS "\x7d\x7d" s then
            match h_process_string fuel funcEval h svRef gvRef s with
            | .error e => .error e
            | .ok r => .ok (h, r)
          else .ok (h, v)
      | .ref id =>
          match h.lookup id with
          | some (.dict kvs) =>
              match hProcessDict (fun h2 v2 => process_value_h fuel funcEval svRef gvRef h2 v2) h kvs with
              | .error e => .error e
              | .ok (h2, kvs2) =>
                  let p := h2.alloc (.dict kvs2)
                  .ok (p.1, .ref p.2)
          | some (.list xs) =>
              match hProcessList (fun h2 v2 => process_value_h fuel funcEval svRef gvRef h2 v2) h xs with
              | .error e => .error e
              | .ok (h2, xs2) =>
                  let p := h2.alloc (.list xs2)
                  .ok (p.1, .ref p.2)
          | none => .error .typeError
      | other => .ok (h, other)

/-- Store-level `VariableResolver.process_data`: render the data to a string
and only walk it when an opening double brace occurs in the rendering. -/
def process_data_h (fuel : Nat) (funcEval : String → Except PyErr HVal)
    (svRef gvRef : Nat) (h : Heap) (v : HVal) : Except PyErr (Heap × HVal) :=
  match hStrV fuel h v with
  | none => .error .recursionError
  | some s =>
      if pySubstrS "\x7b\x7b" s then process_value_h fuel funcEval svRef gvRef h v
      else .ok (h, v)

mutual
/-- Specification-side predicate for the `contains` assertion, written from the
spec's words: some leaf of the nested dict/list structure matches `expected`,
where string leaves match by substring containment and non-string leaves match
when their stringified form equals the (stringified) expected value. -/
def deepMatchSpec (expected : String) : JSON → Bool
  | .obj kvs => dmO expected kvs
  | .arr xs => dmL expected xs
  | .str s => pySubstrS expected s
  | leaf => pyStrJ leaf == expected
termination_by structural j => j
/-- Some list item deep-matches. -/
def dmL (expected : String) : JList → Bool
  | .nil => false
  | .cons x tl => deepMatchSpec expected x || dmL expected tl
termination_by structural xs => xs
/-- Some dict value deep-matches. -/
def dmO (expected : String) : JObj → Bool
  | .nil => false
  | .cons _ v tl => deepMatchSpec expected v || dmO expected tl
termination_by structural kvs => kvs
end

mutual
theorem check_contains_str (e : String) :
    ∀ j : JSON, check_contains (.str e) j = .ok (deepMatchSpec e j)
  | .null => rfl
  | .bool b => rfl
  | .int n => rfl
  | .str s => rfl
  | .arr xs => by
      simpa [check_contains, deepMatchSpec] using ccL_str e xs
  | .obj kvs => by
      simpa [check_contains, deepMatchSpec] using ccO_str e kvs
termination_by structural j => j
theorem ccL_str (e : String) : ∀ xs : JList, ccL (.str e) xs = .ok (dmL e xs)
  | .nil => rfl
  | .cons x tl => by
      have h1 := check_contains_str e x
      have h2 := ccL_str e tl
      simp only [ccL, dmL, h1, h2]
      cases deepMatchSpec e x <;> simp
termination_by structural xs => xs
theorem ccO_str (e : String) : ∀ kvs : JObj, ccO (.str e) kvs = .ok (dmO e kvs)
  | .nil => rfl
  | .cons k v tl => by
      have h1 := check_contains_str e v
      have h2 := ccO_str e tl
      simp only [ccO, dmO, h1, h2]
      cases deepMatchSpec e v <;> simp
termination_by structural kvs => kvs
end

/-! Supporting lemmas. -/

theorem runAsserts_append_ok (conn : Option DBConn) (resp : Response)
    (pre rest : List Spec) (h : ∀ s ∈ pre, (evalAssertion conn resp s).2 = .ok ()) :
    runAsserts conn resp (pre ++ rest)
      = ((runAsserts conn resp pre).1 ++ (runAsserts conn resp rest).1,
         (runAsserts conn resp rest).2) := by
  induction pre with
  | nil => simp [runAsserts]
  | cons a tl ih =>
      have ha : (evalAssertion conn resp a).2 = .ok () := h a (by simp)
      have htl : ∀ s ∈ tl, (evalAssertion conn resp s).2 = .ok () := by
        intro s hs
        exact h s (by simp [hs])
      simp [runAsserts, ha, ih htl]

theorem runAsserts_fail_head (conn : Option DBConn) (resp : Response)
    (a : Spec) (rest : List Spec) (e : PyErr)
    (he : (evalAssertion conn resp a).2 = .error e) :
    runAsserts conn resp (a :: rest) = ((evalAssertion conn resp a).1, .error e) := by
  simp [runAsserts, he]

/-- The pre-loop part of `handle_assertion`: the effects it emits and the
connection the loop will use, `none` when the pre-scan itself raises. -/
def setupOf (asserts : List Spec) (db_config : Option DBConn) :
    Option (List Effect × Option DBConn) :=
  match prescanMysql asserts with
  | .error _ => none
  | .ok true =>
      match db_config with
      | none => none
      | some db => some ([.connect], some db)
  | .ok false => some (([] : List Effect), none)

theorem handle_eq_of_setup (asserts : List Spec) (resp : Response)
    (cfg : Option DBConn) (pfx : List Effect) (conn : Option DBConn)
    (h : setupOf asserts cfg = some (pfx, conn)) :
    handle_assertion asserts resp cfg
      = (pfx ++ (runAsserts conn resp asserts).1, (runAsserts conn resp asserts).2) := by
  unfold handle_assertion
  unfold setupOf at h
  cases hp : prescanMysql asserts with
  | error e => simp [hp] at h
  | ok b =>
      cases b with
      | false =>
          simp [hp] at h
          obtain ⟨h1, h2⟩ := h
          subst h1
          subst h2
          simp
      | true =>
          cases cfg with
          | none => simp [hp] at h
          | some db =>
              simp [hp] at h
              obtain ⟨h1, h2⟩ := h
              subst h1
              subst h2
              simp

theorem prescan_true_or_error (asserts : List Spec) (s : Spec) (t : String)
    (hmem : s ∈ asserts) (ht : alookup s "type" = some (.str t))
    (hmy : pyStartsWith t "mysql" = true) :
    prescanMysql asserts = .ok true ∨ ∃ e, prescanMysql asserts = .error e := by
  induction asserts with
  | nil => cases hmem
  | cons a tl ih =>
      rcases List.mem_cons.mp hmem with rfl | hs
      · left
        simp [prescanMysql, ht, hmy]
      · cases h1 : alookup a "type" with
        | none =>
            right
            exact ⟨.keyError "type", by simp [prescanMysql, h1]⟩
        | some v =>
            cases v with
            | str u =>
                by_cases hu : pyStartsWith u "mysql" = true
                · left
                  simp [prescanMysql, h1, hu]
                · rcases ih hs with h2 | ⟨e, h2⟩
                  · left
                    simpa [prescanMysql, h1, hu] using h2
                  · right
                    exact ⟨e, by simpa [prescanMysql, h1, hu] using h2⟩
            | null => exact Or.inr ⟨.attributeError, by simp [prescanMysql, h1]⟩
            | bool b => exact Or.inr ⟨.attributeError, by simp [prescanMysql, h1]⟩
            | int n => exact Or.inr ⟨.attributeError, by simp [prescanMysql, h1]⟩
            | arr xs => exact Or.inr ⟨.attributeError, by simp [prescanMysql, h1]⟩
            | obj kvs => exact Or.inr ⟨.attributeError, by simp [prescanMysql, h1]⟩

theorem JList.get?_eq_none : ∀ (xs : JList) (i : Nat), JList.len xs ≤ i → JList.get? xs i = none
  | .nil, _, _ => rfl
  | .cons _ tl, 0, h => by simp [JList.len] at h
  | .cons _ tl, j + 1, h =>
      JList.get?_eq_none tl j (by simp [JList.len] at h; omega)
termination_by structural xs _ _ => xs

/-! Claim theorems. -/

/-- Input data for claim C1: one captured SSE event and an `sse_last_event`
assertion spec. -/
def evC1 : SSEEvent := [("event", .str "message"), ("data", .str "hello")]

def sseRespC1 : SSEResponse := ⟨[evC1], ["event: message", "data: hello"], 200⟩

def specC1 : Spec :=
  [("type", .str "sse_last_event"), ("field", .str "status"),
   ("event_type", .str "message")]

/-- C1: refuted on the code.  `SSEResponse.get_event` rejects every negative
index, so `get_event(-1)` is `none` for every captured stream — including
streams with events — and `sse_last_event` therefore always raises the
"没有收到任何 SSE 事件" (no events received) error instead of checking the last
event: evaluated on a response with one captured event, `handle_assertion`
raises exactly that error. -/
theorem claim1_sse_last_event_bug :
    (∀ (evs : List SSEEvent) (lines : List String) (code : Int),
       SSEResponse.get_event ⟨evs, lines, code⟩ (-1) = none)
    ∧ sseRespC1.events.length = 1
    ∧ handle_assertion [specC1] (.sse sseRespC1) none
        = ([.evalStart specC1], .error (.assertionError "没有收到任何 SSE 事件")) := by
  refine ⟨?_, rfl, rfl⟩
  intro evs lines code
  simp [SSEResponse.get_event]

/-- Input data for claim C2: the global scope from the claim. -/
def gvarsC2 : List (String × JSON) := [("merchant", jobj [("token", .str "xyz-token")])]

/-- C2: refuted on the code.  For a `Global.`-rooted expression the root lookup
does use the token after `Global` (`merchant`), but the traversal loop then
runs over `keys[1:]`, which re-applies that token: resolving
`Global.merchant.token` against `global_vars = {merchant: {token: t}}` looks
for a key `merchant` inside `{token: t}` and raises, instead of returning `t`.
The third conjunct shows the value the claim expects is exactly what the
traversal yields when the root token is not re-applied. -/
theorem claim2_global_skip_bug :
    resolve_dot_expression [] gvarsC2 "Global.merchant.token"
      = .error (.valueError "Key 'merchant' not found in \x7b'token': 'xyz-token'\x7d")
    ∧ (∀ fe, process_string fe [] gvarsC2 "\x7b\x7b Global.merchant.token \x7d\x7d"
        = .error (.valueError "Key 'merchant' not found in \x7b'token': 'xyz-token'\x7d"))
    ∧ travKeys (jobj [("token", .str "xyz-token")]) ["token"] = .ok (.str "xyz-token") :=
  ⟨rfl, fun _ => rfl, rfl⟩

/-- Input data for claim C3: a connection on which the query returns one row
whose single column is SQL NULL, and one on which the first column is 5. -/
def dbNullRow : DBConn := fun q => if q = "SELECT 1" then some [JSON.null] else none

def dbIntRow : DBConn := fun q => if q = "SELECT 1" then some [.int 5] else none

def specC3 : Spec := [("type", .str "mysql_query_exists"), ("query", .str "SELECT 1")]

/-- C3: refuted on the code.  `_execute_query` collapses the fetched row to its
first column (`result[0] if result else None`), so `mysql_query_exists` raises
on a query that does return a row when that row's first column is NULL — the
first two conjuncts exhibit a returned row and the raised assertion error.
With a non-NULL first column the assertion passes (third conjunct). -/
theorem claim3_exists_null_column_bug :
    (dbNullRow "SELECT 1").isSome = true
    ∧ handle_assertion [specC3] (.json (jobj [])) (some dbNullRow)
        = ([.connect, .evalStart specC3, .runQuery "SELECT 1"],
           .error (.assertionError "Expected query to return results, but got None"))
    ∧ handle_assertion [specC3] (.json (jobj [])) (some dbIntRow)
        = ([.connect, .evalStart specC3, .runQuery "SELECT 1"], .ok ()) :=
  ⟨rfl, rfl, rfl⟩

/-- C4: type-preserving substitution.  With `session_vars = {a: {n: v}}` and a
numeric or boolean `v`, a host string that is exactly one expression span — in
any of the four whitespace-padding variants — resolves to the typed value
itself, while the same expression embedded in a larger host string is
substituted as text: `x=...` yields the string `x=` followed by the decimal
rendering. -/
theorem claim4_type_preserving_substitution :
    (∀ (n : Int) (fe : String → Except PyErr JSON),
       process_string fe [("a", jobj [("n", .int n)])] [] "\x7b\x7b a.n \x7d\x7d" = .ok (.int n)
       ∧ process_string fe [("a", jobj [("n", .int n)])] [] "\x7b\x7ba.n\x7d\x7d" = .ok (.int n)
       ∧ process_string fe [("a", jobj [("n", .int n)])] [] "\x7b\x7b a.n\x7d\x7d" = .ok (.int n)
       ∧ process_string fe [("a", jobj [("n", .int n)])] [] "\x7b\x7ba.n \x7d\x7d" = .ok (.int n)
       ∧ process_string fe [("a", jobj [("n", .int n)])] [] "x=\x7b\x7b a.n \x7d\x7d"
           = .ok (.str ("x=" ++ toString n)))
    ∧ (∀ (b : Bool) (fe : String → Except PyErr JSON),
       process_string fe [("a", jobj [("n", .bool b)])] [] "\x7b\x7b a.n \x7d\x7d"
         = .ok (.bool b)) := by
  refine ⟨?_, fun b fe => rfl⟩
  intro n fe
  refine ⟨rfl, rfl, rfl, rfl, ?_⟩
  have h1 : process_string fe [("a", jobj [("n", .int n)])] [] "x=\x7b\x7b a.n \x7d\x7d"
      = .ok (.str ⟨'x' :: '=' :: ((toString n).data ++ [])⟩) := rfl
  rw [h1, List.append_nil]
  rfl

/-- Input data for claim C8: the session scope from the claim. -/
def svarsC8 : List (String × JSON) :=
  [("s", jobj [("items", jarr [jobj [("id", .str "A")], jobj [("id", .str "B")]])])]

/-- C8: strict traversal in expression mode.  With
`session_vars = {s: {items: [{id: A}, {id: B}]}}`, resolving
`s.items[1].id` yields `"B"`, and resolving `s.items[5].id` raises (the
out-of-range list index propagates as Python's IndexError). -/
theorem claim8_strict_expression_traversal :
    (∀ fe, process_string fe svarsC8 [] "\x7b\x7b s.items[1].id \x7d\x7d" = .ok (.str "B"))
    ∧ (∀ fe, process_string fe svarsC8 [] "\x7b\x7b s.items[5].id \x7d\x7d" = .error .indexError) :=
  ⟨fun _ => rfl, fun _ => rfl⟩

/-- The `contains` assertion spec of claim C9. -/
def containsSpec (e : String) : Spec := [("type", .str "contains"), ("expected", .str e)]

/-- The response of claim C9's concrete instances. -/
def respC9 : JSON := jobj [("x", jarr [.str "A", .str "B"])]

/-- C9: the `contains` assertion is a recursive deep search over the whole
response (no `field` is needed): for every JSON response and string expected
value, `handle_assertion` passes exactly when some leaf matches in the sense
of `deepMatchSpec`, and otherwise raises the containment assertion error.  In
particular, on `{x: [A, B]}` the expected value `B` passes and `Z` raises. -/
theorem claim9_contains_deep_search :
    (∀ (r : JSON) (e : String),
       handle_assertion [containsSpec e] (.json r) none
         = ([.evalStart (containsSpec e)],
            if deepMatchSpec e r then .ok ()
            else .error (.assertionError ("Expected " ++ e ++ " to be in " ++ pyStrJ r))))
    ∧ handle_assertion [containsSpec "B"] (.json respC9) none
        = ([.evalStart (containsSpec "B")], .ok ())
    ∧ handle_assertion [containsSpec "Z"] (.json respC9) none
        = ([.evalStart (containsSpec "Z")],
           .error (.assertionError ("Expected Z to be in \x7b'x': ['A', 'B']\x7d"))) := by
  refine ⟨?_, rfl, rfl⟩
  intro r e
  have h0 : handle_assertion [containsSpec e] (.json r) none
      = (match (match check_contains (.str e) r with
                | .error er => (.error er : Except PyErr Unit)
                | .ok b => assertTrue b ("Expected " ++ e ++ " to be in " ++ pyStrJ r)) with
         | .error er => ([.evalStart (containsSpec e)], (.error er : Except PyErr Unit))
         | .ok _ => ([.evalStart (containsSpec e)] ++ [], .ok ())) := rfl
  rw [h0, check_contains_str e r]
  cases deepMatchSpec e r <;> simp [assertTrue]

/-- C5: fail-fast, in-order evaluation.  Whenever the pre-loop setup succeeds
(emitting `pfx` and fixing the connection), every assertion before position
`i = |pre|` passes, and the assertion at position `i` raises, the whole call's
observable behavior is exactly: the setup effects, then the effects of the
prefix evaluations, then the effects of the failing assertion's own
evaluation, ending in its error — the specs in `rest` contribute nothing: no
evaluation is started for them and no query of theirs runs. -/
theorem claim5_fail_fast (cfg : Option DBConn) (resp : Response)
    (pre : List Spec) (a : Spec) (rest : List Spec)
    (pfx : List Effect) (conn : Option DBConn)
    (hsetup : setupOf (pre ++ a :: rest) cfg = some (pfx, conn))
    (hpre : ∀ s ∈ pre, (evalAssertion conn resp s).2 = .ok ())
    (hfail : ∃ e, (evalAssertion conn resp a).2 = .error e) :
    handle_assertion (pre ++ a :: rest) resp cfg
      = (pfx ++ ((runAsserts conn resp pre).1 ++ (evalAssertion conn resp a).1),
         (evalAssertion conn resp a).2) := by
  obtain ⟨e, he⟩ := hfail
  rw [handle_eq_of_setup (pre ++ a :: rest) resp cfg pfx conn hsetup]
  rw [runAsserts_append_ok conn resp pre (a :: rest) hpre]
  rw [runAsserts_fail_head conn resp a rest e he]
  rw [he]

def specOkW : Spec := [("type", .str "equal"), ("field", .str "code"), ("expected", .int 0)]

def specFailW : Spec := [("type", .str "equal"), ("field", .str "code"), ("expected", .int 1)]

def respW : Response := .json (jobj [("code", .int 0)])

theorem claim5_witness :
    handle_assertion ([specOkW] ++ specFailW :: [specOkW]) respW none
      = ([] ++ ((runAsserts none respW [specOkW]).1 ++ (evalAssertion none respW specFailW).1),
         (evalAssertion none respW specFailW).2) :=
  claim5_fail_fast none respW [specOkW] specFailW [specOkW] [] none rfl
    (by
      intro s hs
      rw [List.mem_singleton] at hs
      subst hs
      rfl)
    ⟨.assertionError "Expected 1, but got 0", rfl⟩

/-- C6: a mysql-typed assertion spec anywhere in the list together with a
missing `db_config` makes the call raise with an empty effect trace: the
connection is never opened, no spec's evaluation is started, and no query
runs.  (When an earlier spec lacks a `type` key or carries a non-string one,
the pre-scan itself raises, still before anything is evaluated.) -/
theorem claim6_mysql_requires_config (asserts : List Spec) (resp : Response)
    (s : Spec) (t : String)
    (hmem : s ∈ asserts) (ht : alookup s "type" = some (.str t))
    (hmy : pyStartsWith t "mysql" = true) :
    ∃ err, handle_assertion asserts resp none = ([], .error err) := by
  rcases prescan_true_or_error asserts s t hmem ht hmy with hp | ⟨e, hp⟩
  · exact ⟨.valueError "数据库配置 db_config 不能为空，因为有 MySQL 相关断言",
      by simp [handle_assertion, hp]⟩
  · exact ⟨e, by simp [handle_assertion, hp]⟩

theorem claim6_witness :
    ∃ err, handle_assertion [specC3] (.json (jobj [])) none = ([], .error err) :=
  claim6_mysql_requires_config [specC3] (.json (jobj [])) specC3 "mysql_query_exists"
    (by simp) rfl rfl

/-- C7: `get_field_value` is total by construction (it is a plain function
into `DynVal`, with no error outcome) and null-propagating: the claim's
example extracts `None` from a missing key without raising; once the running
value is `None` the remaining tokens are ignored; reading a name off a
non-dict value (including the SSE response object) yields `None`; and an
out-of-range list index yields `None`. -/
theorem claim7_null_propagation :
    get_field_value (.json (jobj [("data", jobj [("id", .int 1)])])) "data.missing.x" = dynNull
    ∧ (∀ ts : List FTok, walkFToks dynNull ts = dynNull)
    ∧ (∀ (j : JSON) (name : String) (ts : List FTok), isObjJ j = false →
         walkFToks (.ofJson j) (.fld name :: ts) = dynNull)
    ∧ (∀ (r : SSEResponse) (name : String) (ts : List FTok),
         walkFToks (.ofSSE r) (.fld name :: ts) = dynNull)
    ∧ (∀ (name : String) (xs : JList) (i : Nat) (ts : List FTok), JList.len xs ≤ i →
         walkFToks (.ofJson (jobj [(name, .arr xs)])) (.idx name i :: ts) = dynNull) := by
  refine ⟨rfl, ?_, ?_, ?_, ?_⟩
  · intro ts
    cases ts with
    | nil => rfl
    | cons t ts => cases t <;> rfl
  · intro j name ts h
    cases j with
    | obj kvs => simp [isObjJ] at h
    | null => rfl
    | bool b => rfl
    | int n => rfl
    | str s => rfl
    | arr xs => rfl
  · intro r name ts
    rfl
  · intro name xs i ts h
    simp [walkFToks, applyFTok, jobj, JObj.ofList, oLookup,
          JList.get?_eq_none xs i h, dynNull, DynVal.isNullD]

theorem claim7_witness :
    walkFToks (.ofJson (.int 7)) [.fld "k"] = dynNull
    ∧ walkFToks (.ofJson (jobj [("items", .arr .nil)])) [.idx "items" 2] = dynNull :=
  ⟨claim7_null_propagation.2.2.1 (.int 7) "k" [] rfl,
   claim7_null_propagation.2.2.2.2 "items" .nil 2 [] (by decide)⟩

theorem lookupCells_append_left (cs ds : List (Nat × HCont)) (id : Nat) (c : HCont)
    (h : lookupCells cs id = some c) : lookupCells (cs ++ ds) id = some c := by
  induction cs with
  | nil => simp [lookupCells] at h
  | cons p tl ih =>
      obtain ⟨i, c0⟩ := p
      by_cases hid : i = id
      · subst hid
        simpa [lookupCells] using h
      · simp only [lookupCells, if_neg hid] at h
        simpa [lookupCells, hid] using ih h

theorem lookupCells_none_of_lt (cs : List (Nat × HCont)) (bound id : Nat)
    (hb : ∀ p ∈ cs, p.1 < bound) (hid : bound ≤ id) : lookupCells cs id = none := by
  induction cs with
  | nil => rfl
  | cons p tl ih =>
      obtain ⟨i, c0⟩ := p
      have hi : i < bound := hb (i, c0) (by simp)
      have : i ≠ id := by omega
      simp only [lookupCells, if_neg this]
      exact ih (fun q hq => hb q (by simp [hq]))

theorem Heap.preserves_refl (h : Heap) : h.preserves h :=
  ⟨le_refl _, fun _ _ hc => hc⟩

theorem Heap.preserves_trans {a b c : Heap} (h1 : a.preserves b) (h2 : b.preserves c) :
    a.preserves c :=
  ⟨le_trans h1.1 h2.1, fun id cc hc => h2.2 id cc (h1.2 id cc hc)⟩

theorem alloc_preserves (h : Heap) (c : HCont) : h.preserves (h.alloc c).1 := by
  constructor
  · simp [Heap.alloc]
  · intro id c0 hc
    exact lookupCells_append_left h.cells [(h.next, c)] id c0 hc

theorem hProcessDict_frame (f : Heap → HVal → Except PyErr (Heap × HVal))
    (hf : ∀ h v h2 v2, f h v = .ok (h2, v2) → h.preserves h2) :
    ∀ (kvs : List (String × HVal)) (h h2 : Heap) (kvs2 : List (String × HVal)),
      hProcessDict f h kvs = .ok (h2, kvs2) → h.preserves h2 := by
  intro kvs
  induction kvs with
  | nil =>
      intro h h2 kvs2 heq
      simp only [hProcessDict, Except.ok.injEq, Prod.mk.injEq] at heq
      obtain ⟨rfl, -⟩ := heq
      exact Heap.preserves_refl h
  | cons p tl ih =>
      intro h h2 kvs2 heq
      obtain ⟨k, v⟩ := p
      simp only [hProcessDict] at heq
      cases h1 : f h v with
      | error e => simp [h1] at heq
      | ok q =>
          obtain ⟨hm, v2⟩ := q
          simp only [h1] at heq
          cases h2eq : hProcessDict f hm tl with
          | error e => simp [h2eq] at heq
          | ok r =>
              obtain ⟨h3, tl2⟩ := r
              simp only [h2eq, Except.ok.injEq, Prod.mk.injEq] at heq
              obtain ⟨rfl, -⟩ := heq
              exact Heap.preserves_trans (hf h v hm v2 h1) (ih hm h3 tl2 h2eq)

theorem hProcessList_frame (f : Heap → HVal → Except PyErr (Heap × HVal))
    (hf : ∀ h v h2 v2, f h v = .ok (h2, v2) → h.preserves h2) :
    ∀ (xs : List HVal) (h h2 : Heap) (xs2 : List HVal),
      hProcessList f h xs = .ok (h2, xs2) → h.preserves h2 := by
  intro xs
  induction xs with
  | nil =>
      intro h h2 xs2 heq
      simp only [hProcessList, Except.ok.injEq, Prod.mk.injEq] at heq
      obtain ⟨rfl, -⟩ := heq
      exact Heap.preserves_refl h
  | cons v tl ih =>
      intro h h2 xs2 heq
      simp only [hProcessList] at heq
      cases h1 : f h v with
      | error e => simp [h1] at heq
      | ok q =>
          obtain ⟨hm, v2⟩ := q
          simp only [h1] at heq
          cases h2eq : hProcessList f hm tl with
          | error e => simp [h2eq] at heq
          | ok r =>
              obtain ⟨h3, tl2⟩ := r
              simp only [h2eq, Except.ok.injEq, Prod.mk.injEq] at heq
              obtain ⟨rfl, -⟩ := heq
              exact Heap.preserves_trans (hf h v hm v2 h1) (ih hm h3 tl2 h2eq)

theorem process_value_h_frame :
    ∀ (fuel : Nat) (fe : String → Except PyErr HVal) (svRef gvRef : Nat)
      (h : Heap) (v : HVal) (h2 : Heap) (v2 : HVal),
      process_value_h fuel fe svRef gvRef h v = .ok (h2, v2) → h.preserves h2 := by
  intro fuel
  induction fuel with
  | zero =>
      intro fe sv gv h v h2 v2 heq
      simp [process_value_h] at heq
  | succ fuel ih =>
      intro fe sv gv h v h2 v2 heq
      cases v with
      | str s =>
          simp only [process_value_h] at heq
          split at heq
          · split at heq
            · cases heq
            · simp only [Except.ok.injEq, Prod.mk.injEq] at heq
              obtain ⟨rfl, -⟩ := heq
              exact Heap.preserves_refl h
          · simp only [Except.ok.injEq, Prod.mk.injEq] at heq
            obtain ⟨rfl, -⟩ := heq
            exact Heap.preserves_refl h
      | ref id =>
          simp only [process_value_h] at heq
          cases hl : h.lookup id with
          | none => simp [hl] at heq
          | some c =>
              simp only [hl] at heq
              cases c with
              | dict kvs =>
                  cases hd : hProcessDict (fun h2 v2 => process_value_h fuel fe sv gv h2 v2) h kvs with
                  | error e => simp [hd] at heq
                  | ok p =>
                      obtain ⟨hm, kvs2⟩ := p
                      simp only [hd, Except.ok.injEq, Prod.mk.injEq] at heq
                      obtain ⟨rfl, -⟩ := heq
                      exact Heap.preserves_trans
                        (hProcessDict_frame _ (fun a b c d => ih fe sv gv a b c d) kvs h hm kvs2 hd)
                        (alloc_preserves hm _)
              | list xs =>
                  cases hd : hProcessList (fun h2 v2 => process_value_h fuel fe sv gv h2 v2) h xs with
                  | error e => simp [hd] at heq
                  | ok p =>
                      obtain ⟨hm, xs2⟩ := p
                      simp only [hd, Except.ok.injEq, Prod.mk.injEq] at heq
                      obtain ⟨rfl, -⟩ := heq
                      exact Heap.preserves_trans
                        (hProcessList_frame _ (fun a b c d => ih fe sv gv a b c d) xs h hm xs2 hd)
                        (alloc_preserves hm _)
      | null =>
          simp only [process_value_h, Except.ok.injEq, Prod.mk.injEq] at heq
          obtain ⟨rfl, -⟩ := heq
          exact Heap.preserves_refl h
      | bool b =>
          simp only [process_value_h, Except.ok.injEq, Prod.mk.injEq] at heq
          obtain ⟨rfl, -⟩ := heq
          exact Heap.preserves_refl h
      | int n =>
          simp only [process_value_h, Except.ok.injEq, Prod.mk.injEq] at heq
          obtain ⟨rfl, -⟩ := heq
          exact Heap.preserves_refl h

/-- C10: resolution never mutates its inputs.  In the store-level model, a
successful `process_value` run only extends the heap — every cell that existed
before (in particular every cell of the `session_vars` / `global_vars` dicts
and of the input data) still holds exactly its old contents — and when the
input is a dict/list reference the result is a reference to a freshly
allocated cell, one that did not exist in the input heap, not the input
container updated in place.  The same heap extension holds for a successful
`process_data` run (which either returns its input untouched or delegates to
`process_value`). -/
theorem claim10_resolution_no_mutation (fuel : Nat) (fe : String → Except PyErr HVal)
    (svRef gvRef : Nat) (h : Heap) (v : HVal) (h2 : Heap) (v2 : HVal) (hwf : h.wf) :
    (process_value_h fuel fe svRef gvRef h v = .ok (h2, v2) →
       h.preserves h2
       ∧ (∀ id, v = .ref id → ∃ nid, v2 = .ref nid ∧ h.next ≤ nid ∧ h.lookup nid = none))
    ∧ (process_data_h fuel fe svRef gvRef h v = .ok (h2, v2) → h.preserves h2) := by
  constructor
  · intro heq
    refine ⟨process_value_h_frame fuel fe svRef gvRef h v h2 v2 heq, ?_⟩
    intro id hv
    subst hv
    cases fuel with
    | zero => simp [process_value_h] at heq
    | succ fuel =>
        simp only [process_value_h] at heq
        cases hl : h.lookup id with
        | none => simp [hl] at heq
        | some c =>
            simp only [hl] at heq
            cases c with
            | dict kvs =>
                cases hd : hProcessDict (fun h3 v3 => process_value_h fuel fe svRef gvRef h3 v3) h kvs with
                | error e => simp [hd] at heq
                | ok p =>
                    obtain ⟨hm, kvs2⟩ := p
                    simp only [hd, Except.ok.injEq, Prod.mk.injEq] at heq
                    obtain ⟨-, rfl⟩ := heq
                    have hpres : h.preserves hm :=
                      hProcessDict_frame _
                        (fun a b c d => process_value_h_frame fuel fe svRef gvRef a b c d)
                        kvs h hm kvs2 hd
                    refine ⟨hm.next, rfl, hpres.1, ?_⟩
                    exact lookupCells_none_of_lt h.cells h.next hm.next hwf hpres.1
            | list xs =>
                cases hd : hProcessList (fun h3 v3 => process_value_h fuel fe svRef gvRef h3 v3) h xs with
                | error e => simp [hd] at heq
                | ok p =>
                    obtain ⟨hm, xs2⟩ := p
                    simp only [hd, Except.ok.injEq, Prod.mk.injEq] at heq
                    obtain ⟨-, rfl⟩ := heq
                    have hpres : h.preserves hm :=
                      hProcessList_frame _
                        (fun a b c d => process_value_h_frame fuel fe svRef gvRef a b c d)
                        xs h hm xs2 hd
                    refine ⟨hm.next, rfl, hpres.1, ?_⟩
                    exact lookupCells_none_of_lt h.cells h.next hm.next hwf hpres.1
  · intro heq
    unfold process_data_h at heq
    cases hs : hStrV fuel h v with
    | none => simp [hs] at heq
    | some s =>
        simp only [hs] at heq
        split at heq
        · exact process_value_h_frame fuel fe svRef gvRef h v h2 v2 heq
        · simp only [Except.ok.injEq, Prod.mk.injEq] at heq
          obtain ⟨rfl, -⟩ := heq
          exact Heap.preserves_refl h

def feW : String → Except PyErr HVal := fun _ => .error .typeError

def h0w : Heap := ⟨[(0, .dict [("a", .int 1)])], 1⟩

def h1w : Heap := ⟨[(0, .dict [("a", .int 1)]), (1, .dict [("a", .int 1)])], 2⟩

theorem claim10_witness :
    h0w.preserves h1w
    ∧ (∀ id, (HVal.ref 0 : HVal) = .ref id →
         ∃ nid, (HVal.ref 1 : HVal) = .ref nid ∧ h0w.next ≤ nid ∧ h0w.lookup nid = none) :=
  (claim10_resolution_no_mutation 2 feW 7 8 h0w (.ref 0) h1w (.ref 1)
      (by
        intro p hp
        simp only [h0w, List.mem_singleton] at hp
        subst hp
        decide)).1 rfl
